import Mathlib

/-!
Verification development for the go-fed ActivityStreams property and type
code: the functional properties partOf and liked, and the Question type.

The Go values unmarshalled from JSON (Go interface values held in
map[string]interface{}) are embedded as the inductive JSONValue; Go maps
over string keys are embedded as association lists looked up with alookup.
Go interface-typed struct members, which may be nil, are embedded as Option
values. The vocabulary value types behind the vocab interfaces
(ActivityStreamsLink, ActivityStreamsCollection, ...) are opaque to the
code under study, so they are embedded as a type parameter, with the
methods the code calls on them (Serialize, LessThan, JSONLDContext) passed
in explicitly; the type registry mgr is likewise a record of deserializer
functions passed in explicitly, as it is an external collaborator.
-/

set_option autoImplicit false

namespace ActivityCheck

universe u v

/-- Embedding of a generic unmarshalled JSON document tree: the values a Go
map[string]interface{} can hold after encoding/json unmarshalling. -/
inductive JSONValue : Type where
  | str : String → JSONValue
  | num : Int → JSONValue
  | bool : Bool → JSONValue
  | null : JSONValue
  | arr : List JSONValue → JSONValue
  | obj : List (String × JSONValue) → JSONValue

/-- Embedding of a Go map with string keys as an association list. -/
abbrev JSONObj : Type := List (String × JSONValue)

/-- Embedding of the alias map from vocabulary namespace URIs to aliases. -/
abbrev AliasMap : Type := List (String × String)

/-- Lookup in an association list, the embedding of a Go map read m[k]. -/
def alookup {α : Type u} (k : String) : List (String × α) → Option α
  | [] => none
  | (k', v) :: rest => if k' = k then some v else alookup k rest

/-- Embedding of a Go map assignment m[k] = v: replace the binding of k if
present, otherwise add it. -/
def mapSet {α : Type u} (m : List (String × α)) (k : String) (v : α) :
    List (String × α) :=
  match m with
  | [] => [(k, v)]
  | (k', v') :: rest => if k' = k then (k, v) :: rest else (k', v') :: mapSet rest k v

theorem alookup_mapSet {α : Type u} (m : List (String × α)) (k q : String) (v : α) :
    alookup q (mapSet m k v) = if k = q then some v else alookup q m := by
  induction m with
  | nil =>
      by_cases h : k = q <;> simp [mapSet, alookup, h]
  | cons hd tl ih =>
      obtain ⟨k₀, v₀⟩ := hd
      by_cases h₀ : k₀ = k
      · subst h₀
        by_cases h : k₀ = q <;> simp [mapSet, alookup, h, ih]
      · by_cases h : k₀ = q
        · subst h
          have hne : ¬ k = k₀ := fun hk => h₀ hk.symm
          simp [mapSet, alookup, h₀, hne]
        · simp [mapSet, alookup, h₀, h, ih]

theorem alookup_append {α : Type u} (l₁ l₂ : List (String × α)) (k : String) :
    alookup k (l₁ ++ l₂) =
      match alookup k l₁ with
      | some v => some v
      | none => alookup k l₂ := by
  induction l₁ with
  | nil => simp [alookup]
  | cons hd tl ih =>
      obtain ⟨k₀, v₀⟩ := hd
      by_cases h : k₀ = k <;> simp [alookup, h, ih]

/-- Assign every pair of l into m in order, the embedding of a Go loop
for k, v := range child followed by m[k] = v. -/
def assignAll {α : Type u} (m : List (String × α)) (l : List (String × α)) :
    List (String × α) :=
  l.foldl (fun acc kv => mapSet acc kv.1 kv.2) m

theorem alookup_assignAll {α : Type u} (l m : List (String × α)) (k : String) :
    alookup k (assignAll m l) =
      match alookup k l.reverse with
      | some v => some v
      | none => alookup k m := by
  induction l generalizing m with
  | nil => simp [assignAll, alookup]
  | cons hd tl ih =>
      obtain ⟨k₀, v₀⟩ := hd
      have step : assignAll m ((k₀, v₀) :: tl) = assignAll (mapSet m k₀ v₀) tl := rfl
      rw [step, ih]
      have hrev : ((k₀, v₀) :: tl).reverse = tl.reverse ++ [(k₀, v₀)] := by simp
      rw [hrev, alookup_append]
      cases h : alookup k tl.reverse with
      | some v => simp
      | none =>
          simp only [alookup, alookup_mapSet]
          by_cases hk : k₀ = k
          · subst hk; simp
          · simp [hk]

/-- Modelled from the spec: the net/url package is an external collaborator
not present in the repository. Per the spec glossary an IRI is any string
successfully parsed as a URL with a non-empty scheme, and a parsed IRI
string serializes back to the identical string, so a parsed URL is
modelled as its scheme together with the verbatim remainder after the
scheme separator. -/
structure GoURL : Type where
  scheme : String
  rest : String
deriving DecidableEq

/-- String form of a modelled URL; reattaches the scheme separator. -/
def urlString (u : GoURL) : String :=
  if u.scheme = "" then u.rest else u.scheme ++ ":" ++ u.rest

/-- Character class of scheme characters after the first, per RFC 3986. -/
def isSchemeChar (c : Char) : Bool :=
  c.isAlpha || c.isDigit || c = '+' || c = '-' || c = '.'

/-- ASCII control characters, which make URL parsing fail. -/
def isCtl (c : Char) : Bool :=
  c.toNat < 32 || c.toNat = 127

/-- Scan for the scheme separator, accumulating scheme characters seen so
far in reverse; gives back the scheme and the remainder, or none when the
string holds no scheme. -/
def splitScheme (seen : List Char) : List Char → Option (List Char × List Char)
  | [] => none
  | c :: cs =>
      if c = ':' then some (seen.reverse, cs)
      else if isSchemeChar c then splitScheme (c :: seen) cs
      else none

/-- Scheme extraction on the character list of a URL string: fails on a
leading scheme separator; extracts a scheme when the string starts with a
letter followed by scheme characters up to a colon; otherwise yields a URL
with an empty scheme holding the whole string. -/
def urlParseList : List Char → Option GoURL
  | [] => some ⟨"", ""⟩
  | c :: cs =>
      if c = ':' then none
      else if c.isAlpha then
        match splitScheme [c] cs with
        | some (sch, rest) => some ⟨⟨sch⟩, ⟨rest⟩⟩
        | none => some ⟨"", ⟨c :: cs⟩⟩
      else some ⟨"", ⟨c :: cs⟩⟩

/-- Modelled from the spec: url.Parse of net/url. Fails on control
characters, otherwise extracts the scheme. -/
def urlParse (s : String) : Option GoURL :=
  if s.data.any isCtl then none else urlParseList s.data

theorem splitScheme_append (seen l : List Char) (sch rest : List Char)
    (h : splitScheme seen l = some (sch, rest)) :
    seen.reverse ++ l = sch ++ ':' :: rest := by
  induction l generalizing seen with
  | nil => simp [splitScheme] at h
  | cons c cs ih =>
      by_cases hc : c = ':'
      · subst hc
        simp [splitScheme] at h
        obtain ⟨h₁, h₂⟩ := h
        subst h₁; subst h₂; rfl
      · by_cases hsc : isSchemeChar c
        · have hrec : splitScheme (c :: seen) cs = some (sch, rest) := by
            simpa [splitScheme, hc, hsc] using h
          have := ih (c :: seen) hrec
          simpa using this
        · simp [splitScheme, hc, hsc] at h

theorem urlString_urlParseList (l : List Char) (u : GoURL)
    (h : urlParseList l = some u) (hs : u.scheme ≠ "") :
    urlString u = ⟨l⟩ := by
  cases l with
  | nil =>
      simp [urlParseList] at h
      rw [← h] at hs
      simp at hs
  | cons c cs =>
      by_cases hc : c = ':'
      · simp [urlParseList, hc] at h
      · rw [urlParseList, if_neg hc] at h
        by_cases ha : c.isAlpha
        · rw [if_pos ha] at h
          cases hsp : splitScheme [c] cs with
          | some p =>
              obtain ⟨sch, rest⟩ := p
              rw [hsp] at h
              simp at h
              have hb := splitScheme_append [c] cs sch rest hsp
              simp at hb
              subst h
              simp only [urlString]
              rw [if_neg hs]
              show String.mk (sch ++ ":".data ++ rest) = ⟨c :: cs⟩
              have hcolon : (":" : String).data = [':'] := rfl
              rw [hcolon, hb]
              simp
          | none =>
              rw [hsp] at h
              simp at h
              rw [← h] at hs
              simp at hs
        · rw [if_neg ha] at h
          simp at h
          rw [← h] at hs
          simp at hs

/-- Round trip of the modelled URL parser: a string parsed with a
non-empty scheme prints back to the identical string. -/
theorem urlString_urlParse (s : String) (u : GoURL)
    (h : urlParse s = some u) (hs : u.scheme ≠ "") :
    urlString u = s := by
  obtain ⟨l⟩ := s
  unfold urlParse at h
  by_cases hctl : (String.mk l).data.any isCtl
  · simp [hctl] at h
  · rw [if_neg hctl] at h
    exact urlString_urlParseList l u h hs

/-- Embedding of strings.TrimPrefix of the Go standard library, stated on
the underlying character lists. -/
def trimPfx (p s : String) : String :=
  if p.data.isPrefixOf s.data then ⟨s.data.drop p.data.length⟩ else s

/-- The canonical vocabulary namespace URI used by the generated code. -/
def vocabNS : String := "https://www.w3.org/TR/activitystreams-vocabulary"

/-- Resolution of the namespace alias from a supplied alias map; the empty
string when the vocabulary namespace has no entry. -/
def resolveAlias (am : AliasMap) : String :=
  (alookup vocabNS am).getD ""

/-- Qualified key name for a property: the alias-prefixed name when an
alias is set, the bare name otherwise. -/
def qualifiedName (al base : String) : String :=
  if al.length > 0 then al ++ ":" ++ base else base



/-- Embedding of the ActivityStreamsPartOfProperty struct of the partOf
property file. V is the common carrier for the opaque vocab interface
values; each member field is an Option because the Go interface values may
be nil. Field defaults mirror the zero values of the Go struct, so record
literals below read like the Go composite literals. The Go field alias is
named aliasName here because alias is a reserved word in Lean. -/
structure ActivityStreamsPartOfProperty (V : Type u) : Type u where
  activitystreamsLinkMember : Option V := none
  activitystreamsCollectionMember : Option V := none
  activitystreamsCollectionPageMember : Option V := none
  activitystreamsMentionMember : Option V := none
  activitystreamsOrderedCollectionMember : Option V := none
  activitystreamsOrderedCollectionPageMember : Option V := none
  unknown : Option JSONValue := none
  iri : Option GoURL := none
  aliasName : String := ""

variable {V : Type u}

/-- Embedding of NewActivityStreamsPartOfProperty. -/
def newActivityStreamsPartOfProperty : ActivityStreamsPartOfProperty V :=
  { aliasName := "" }

namespace ActivityStreamsPartOfProperty

/-- Embedding of the IsActivityStreamsLink method. -/
def isActivityStreamsLink (p : ActivityStreamsPartOfProperty V) : Bool :=
  p.activitystreamsLinkMember.isSome

/-- Embedding of the IsActivityStreamsCollection method. -/
def isActivityStreamsCollection (p : ActivityStreamsPartOfProperty V) : Bool :=
  p.activitystreamsCollectionMember.isSome

/-- Embedding of the IsActivityStreamsCollectionPage method. -/
def isActivityStreamsCollectionPage (p : ActivityStreamsPartOfProperty V) : Bool :=
  p.activitystreamsCollectionPageMember.isSome

/-- Embedding of the IsActivityStreamsMention method. -/
def isActivityStreamsMention (p : ActivityStreamsPartOfProperty V) : Bool :=
  p.activitystreamsMentionMember.isSome

/-- Embedding of the IsActivityStreamsOrderedCollection method. -/
def isActivityStreamsOrderedCollection (p : ActivityStreamsPartOfProperty V) : Bool :=
  p.activitystreamsOrderedCollectionMember.isSome

/-- Embedding of the IsActivityStreamsOrderedCollectionPage method. -/
def isActivityStreamsOrderedCollectionPage (p : ActivityStreamsPartOfProperty V) : Bool :=
  p.activitystreamsOrderedCollectionPageMember.isSome

/-- Embedding of the IsIRI method. -/
def isIRI (p : ActivityStreamsPartOfProperty V) : Bool :=
  p.iri.isSome

/-- Embedding of the HasAny method: the disjunction of the six Is methods
and the iri check, in source order. -/
def hasAny (p : ActivityStreamsPartOfProperty V) : Bool :=
  p.isActivityStreamsLink ||
  p.isActivityStreamsCollection ||
  p.isActivityStreamsCollectionPage ||
  p.isActivityStreamsMention ||
  p.isActivityStreamsOrderedCollection ||
  p.isActivityStreamsOrderedCollectionPage ||
  p.iri.isSome

/-- Embedding of the KindIndex method: declared kind positions 0..5, -2
for an IRI, -1 for an empty property, checked in source order. -/
def kindIndex (p : ActivityStreamsPartOfProperty V) : Int :=
  if p.isActivityStreamsLink then 0
  else if p.isActivityStreamsCollection then 1
  else if p.isActivityStreamsCollectionPage then 2
  else if p.isActivityStreamsMention then 3
  else if p.isActivityStreamsOrderedCollection then 4
  else if p.isActivityStreamsOrderedCollectionPage then 5
  else if p.isIRI then -2
  else -1

/-- Embedding of the Clear method: every slot is reset. -/
def clear (p : ActivityStreamsPartOfProperty V) : ActivityStreamsPartOfProperty V :=
  { p with
    activitystreamsLinkMember := none
    activitystreamsCollectionMember := none
    activitystreamsCollectionPageMember := none
    activitystreamsMentionMember := none
    activitystreamsOrderedCollectionMember := none
    activitystreamsOrderedCollectionPageMember := none
    unknown := none
    iri := none }

/-- Embedding of SetActivityStreamsLink: Clear, then store the argument,
which as a Go interface value may be nil. -/
def setActivityStreamsLink (p : ActivityStreamsPartOfProperty V) (v : Option V) :
    ActivityStreamsPartOfProperty V :=
  { p.clear with activitystreamsLinkMember := v }

/-- Embedding of SetActivityStreamsCollection. -/
def setActivityStreamsCollection (p : ActivityStreamsPartOfProperty V) (v : Option V) :
    ActivityStreamsPartOfProperty V :=
  { p.clear with activitystreamsCollectionMember := v }

/-- Embedding of SetActivityStreamsCollectionPage. -/
def setActivityStreamsCollectionPage (p : ActivityStreamsPartOfProperty V) (v : Option V) :
    ActivityStreamsPartOfProperty V :=
  { p.clear with activitystreamsCollectionPageMember := v }

/-- Embedding of SetActivityStreamsMention. -/
def setActivityStreamsMention (p : ActivityStreamsPartOfProperty V) (v : Option V) :
    ActivityStreamsPartOfProperty V :=
  { p.clear with activitystreamsMentionMember := v }

/-- Embedding of SetActivityStreamsOrderedCollection. -/
def setActivityStreamsOrderedCollection (p : ActivityStreamsPartOfProperty V) (v : Option V) :
    ActivityStreamsPartOfProperty V :=
  { p.clear with activitystreamsOrderedCollectionMember := v }

/-- Embedding of SetActivityStreamsOrderedCollectionPage. -/
def setActivityStreamsOrderedCollectionPage (p : ActivityStreamsPartOfProperty V) (v : Option V) :
    ActivityStreamsPartOfProperty V :=
  { p.clear with activitystreamsOrderedCollectionPageMember := v }

/-- Embedding of SetIRI; the argument is a Go pointer, so possibly nil. -/
def setIRI (p : ActivityStreamsPartOfProperty V) (u : Option GoURL) :
    ActivityStreamsPartOfProperty V :=
  { p.clear with iri := u }

/-- Embedding of the Serialize method: the populated kind serializes
itself; an IRI serializes to its string; otherwise the stored unknown
payload, possibly absent, is returned. The serializer of the opaque vocab
values is the argument ser. -/
def serialize (ser : V → Except String JSONValue) (p : ActivityStreamsPartOfProperty V) :
    Except String (Option JSONValue) :=
  match p.activitystreamsLinkMember with
  | some v => (ser v).map some
  | none =>
  match p.activitystreamsCollectionMember with
  | some v => (ser v).map some
  | none =>
  match p.activitystreamsCollectionPageMember with
  | some v => (ser v).map some
  | none =>
  match p.activitystreamsMentionMember with
  | some v => (ser v).map some
  | none =>
  match p.activitystreamsOrderedCollectionMember with
  | some v => (ser v).map some
  | none =>
  match p.activitystreamsOrderedCollectionPageMember with
  | some v => (ser v).map some
  | none =>
  match p.iri with
  | some u => .ok (some (.str (urlString u)))
  | none => .ok p.unknown

/-- Embedding of the child-context selection inside JSONLDContext: the
populated kind, checked in source order, contributes its own context map;
an empty property (or an IRI or unknown payload) contributes nothing. The
context maps of the opaque vocab values come from the argument ctx. -/
def childContext (ctx : V → List (String × String)) (p : ActivityStreamsPartOfProperty V) :
    List (String × String) :=
  match p.activitystreamsLinkMember with
  | some v => ctx v
  | none =>
  match p.activitystreamsCollectionMember with
  | some v => ctx v
  | none =>
  match p.activitystreamsCollectionPageMember with
  | some v => ctx v
  | none =>
  match p.activitystreamsMentionMember with
  | some v => ctx v
  | none =>
  match p.activitystreamsOrderedCollectionMember with
  | some v => ctx v
  | none =>
  match p.activitystreamsOrderedCollectionPageMember with
  | some v => ctx v
  | none => []

/-- Embedding of the JSONLDContext method: start from the vocabulary
namespace entry for this alias, then assign every entry of the populated
kind's context map over it, exactly as the source's range loop does. -/
def jsonLDContext (ctx : V → List (String × String)) (p : ActivityStreamsPartOfProperty V) :
    List (String × String) :=
  assignAll [(vocabNS, p.aliasName)] (childContext ctx p)

end ActivityStreamsPartOfProperty

/-- Record of the registry deserializers the partOf property consults, in
its declared candidate order; an external collaborator, so each entry is
an arbitrary function. A successful call yields the typed value. -/
structure PartOfRegistry (V : Type u) : Type u where
  deserializeLink : JSONObj → AliasMap → Except String V
  deserializeCollection : JSONObj → AliasMap → Except String V
  deserializeCollectionPage : JSONObj → AliasMap → Except String V
  deserializeMention : JSONObj → AliasMap → Except String V
  deserializeOrderedCollection : JSONObj → AliasMap → Except String V
  deserializeOrderedCollectionPage : JSONObj → AliasMap → Except String V

/-- Embedding of the string branch of DeserializePartOfProperty: a string
value becomes an IRI only when URL parsing succeeds with a non-empty
scheme; any other value, or a failing string, yields nothing here. -/
def partOfTryIRI (al : String) (i : JSONValue) :
    Option (ActivityStreamsPartOfProperty V) :=
  match i with
  | .str s =>
      match urlParse s with
      | some u =>
          if u.scheme.length > 0 then some { aliasName := al, iri := some u } else none
      | none => none
  | _ => none

/-- Embedding of the map branch of DeserializePartOfProperty: each
candidate kind's registry deserializer is tried in declared order (Link,
Collection, CollectionPage, Mention, OrderedCollection,
OrderedCollectionPage) and the first success is stored in its slot. -/
def partOfTryKinds (reg : PartOfRegistry V) (al : String) (o : JSONObj) (am : AliasMap) :
    Option (ActivityStreamsPartOfProperty V) :=
  match reg.deserializeLink o am with
  | .ok v => some { activitystreamsLinkMember := some v, aliasName := al }
  | .error _ =>
  match reg.deserializeCollection o am with
  | .ok v => some { activitystreamsCollectionMember := some v, aliasName := al }
  | .error _ =>
  match reg.deserializeCollectionPage o am with
  | .ok v => some { activitystreamsCollectionPageMember := some v, aliasName := al }
  | .error _ =>
  match reg.deserializeMention o am with
  | .ok v => some { activitystreamsMentionMember := some v, aliasName := al }
  | .error _ =>
  match reg.deserializeOrderedCollection o am with
  | .ok v => some { activitystreamsOrderedCollectionMember := some v, aliasName := al }
  | .error _ =>
  match reg.deserializeOrderedCollectionPage o am with
  | .ok v => some { activitystreamsOrderedCollectionPageMember := some v, aliasName := al }
  | .error _ => none

/-- Embedding of DeserializePartOfProperty: resolve the possibly
alias-qualified key, return nothing when it is absent, otherwise try the
schemed-IRI string branch, then the typed-map branch, and fall back to
storing the raw value in the unknown slot. No branch produces an error. -/
def deserializePartOfProperty (reg : PartOfRegistry V) (m : JSONObj) (am : AliasMap) :
    Except String (Option (ActivityStreamsPartOfProperty V)) :=
  let al := resolveAlias am
  match alookup (qualifiedName al "partOf") m with
  | none => .ok none
  | some i =>
      match partOfTryIRI al i with
      | some p => .ok (some p)
      | none =>
          match i with
          | .obj o =>
              match partOfTryKinds reg al o am with
              | some p => .ok (some p)
              | none => .ok (some { aliasName := al, unknown := some i })
          | _ => .ok (some { aliasName := al, unknown := some i })

/-- Embedding of the ActivityStreamsLikedProperty struct of the liked
property file: four candidate kinds in declared order OrderedCollection,
Collection, CollectionPage, OrderedCollectionPage, plus the unknown and
iri slots. The Go field alias is again named aliasName. -/
structure ActivityStreamsLikedProperty (V : Type u) : Type u where
  activitystreamsOrderedCollectionMember : Option V := none
  activitystreamsCollectionMember : Option V := none
  activitystreamsCollectionPageMember : Option V := none
  activitystreamsOrderedCollectionPageMember : Option V := none
  unknown : Option JSONValue := none
  iri : Option GoURL := none
  aliasName : String := ""

/-- Embedding of NewActivityStreamsLikedProperty. -/
def newActivityStreamsLikedProperty : ActivityStreamsLikedProperty V :=
  { aliasName := "" }

namespace ActivityStreamsLikedProperty

/-- Embedding of the IsActivityStreamsOrderedCollection method. -/
def isActivityStreamsOrderedCollection (p : ActivityStreamsLikedProperty V) : Bool :=
  p.activitystreamsOrderedCollectionMember.isSome

/-- Embedding of the IsActivityStreamsCollection method. -/
def isActivityStreamsCollection (p : ActivityStreamsLikedProperty V) : Bool :=
  p.activitystreamsCollectionMember.isSome

/-- Embedding of the IsActivityStreamsCollectionPage method. -/
def isActivityStreamsCollectionPage (p : ActivityStreamsLikedProperty V) : Bool :=
  p.activitystreamsCollectionPageMember.isSome

/-- Embedding of the IsActivityStreamsOrderedCollectionPage method. -/
def isActivityStreamsOrderedCollectionPage (p : ActivityStreamsLikedProperty V) : Bool :=
  p.activitystreamsOrderedCollectionPageMember.isSome

/-- Embedding of the IsIRI method. -/
def isIRI (p : ActivityStreamsLikedProperty V) : Bool :=
  p.iri.isSome

/-- Embedding of the HasAny method, in source order. -/
def hasAny (p : ActivityStreamsLikedProperty V) : Bool :=
  p.isActivityStreamsOrderedCollection ||
  p.isActivityStreamsCollection ||
  p.isActivityStreamsCollectionPage ||
  p.isActivityStreamsOrderedCollectionPage ||
  p.iri.isSome

/-- Embedding of the KindIndex method. -/
def kindIndex (p : ActivityStreamsLikedProperty V) : Int :=
  if p.isActivityStreamsOrderedCollection then 0
  else if p.isActivityStreamsCollection then 1
  else if p.isActivityStreamsCollectionPage then 2
  else if p.isActivityStreamsOrderedCollectionPage then 3
  else if p.isIRI then -2
  else -1

/-- Embedding of the Clear method. -/
def clear (p : ActivityStreamsLikedProperty V) : ActivityStreamsLikedProperty V :=
  { p with
    activitystreamsOrderedCollectionMember := none
    activitystreamsCollectionMember := none
    activitystreamsCollectionPageMember := none
    activitystreamsOrderedCollectionPageMember := none
    unknown := none
    iri := none }

/-- Embedding of SetActivityStreamsOrderedCollection. -/
def setActivityStreamsOrderedCollection (p : ActivityStreamsLikedProperty V) (v : Option V) :
    ActivityStreamsLikedProperty V :=
  { p.clear with activitystreamsOrderedCollectionMember := v }

/-- Embedding of SetActivityStreamsCollection. -/
def setActivityStreamsCollection (p : ActivityStreamsLikedProperty V) (v : Option V) :
    ActivityStreamsLikedProperty V :=
  { p.clear with activitystreamsCollectionMember := v }

/-- Embedding of SetActivityStreamsCollectionPage. -/
def setActivityStreamsCollectionPage (p : ActivityStreamsLikedProperty V) (v : Option V) :
    ActivityStreamsLikedProperty V :=
  { p.clear with activitystreamsCollectionPageMember := v }

/-- Embedding of SetActivityStreamsOrderedCollectionPage. -/
def setActivityStreamsOrderedCollectionPage (p : ActivityStreamsLikedProperty V) (v : Option V) :
    ActivityStreamsLikedProperty V :=
  { p.clear with activitystreamsOrderedCollectionPageMember := v }

/-- Embedding of SetIRI. -/
def setIRI (p : ActivityStreamsLikedProperty V) (u : Option GoURL) :
    ActivityStreamsLikedProperty V :=
  { p.clear with iri := u }

/-- Embedding of the child-context selection inside JSONLDContext of the
liked property, checked in its source order. -/
def childContext (ctx : V → List (String × String)) (p : ActivityStreamsLikedProperty V) :
    List (String × String) :=
  match p.activitystreamsOrderedCollectionMember with
  | some v => ctx v
  | none =>
  match p.activitystreamsCollectionMember with
  | some v => ctx v
  | none =>
  match p.activitystreamsCollectionPageMember with
  | some v => ctx v
  | none =>
  match p.activitystreamsOrderedCollectionPageMember with
  | some v => ctx v
  | none => []

/-- Embedding of the JSONLDContext method of the liked property. -/
def jsonLDContext (ctx : V → List (String × String)) (p : ActivityStreamsLikedProperty V) :
    List (String × String) :=
  assignAll [(vocabNS, p.aliasName)] (childContext ctx p)

end ActivityStreamsLikedProperty

/-- Record of the registry deserializers the liked property consults, in
its declared candidate order. -/
structure LikedRegistry (V : Type u) : Type u where
  deserializeOrderedCollection : JSONObj → AliasMap → Except String V
  deserializeCollection : JSONObj → AliasMap → Except String V
  deserializeCollectionPage : JSONObj → AliasMap → Except String V
  deserializeOrderedCollectionPage : JSONObj → AliasMap → Except String V

/-- Embedding of the string branch of DeserializeLikedProperty. -/
def likedTryIRI (al : String) (i : JSONValue) :
    Option (ActivityStreamsLikedProperty V) :=
  match i with
  | .str s =>
      match urlParse s with
      | some u =>
          if u.scheme.length > 0 then some { aliasName := al, iri := some u } else none
      | none => none
  | _ => none

/-- Embedding of the map branch of DeserializeLikedProperty: candidates
tried in declared order OrderedCollection, Collection, CollectionPage,
OrderedCollectionPage; the first success is stored in its slot. -/
def likedTryKinds (reg : LikedRegistry V) (al : String) (o : JSONObj) (am : AliasMap) :
    Option (ActivityStreamsLikedProperty V) :=
  match reg.deserializeOrderedCollection o am with
  | .ok v => some { activitystreamsOrderedCollectionMember := some v, aliasName := al }
  | .error _ =>
  match reg.deserializeCollection o am with
  | .ok v => some { activitystreamsCollectionMember := some v, aliasName := al }
  | .error _ =>
  match reg.deserializeCollectionPage o am with
  | .ok v => some { activitystreamsCollectionPageMember := some v, aliasName := al }
  | .error _ =>
  match reg.deserializeOrderedCollectionPage o am with
  | .ok v => some { activitystreamsOrderedCollectionPageMember := some v, aliasName := al }
  | .error _ => none

/-- Embedding of DeserializeLikedProperty, structured exactly like the
partOf deserializer but over the liked key and candidate list. -/
def deserializeLikedProperty (reg : LikedRegistry V) (m : JSONObj) (am : AliasMap) :
    Except String (Option (ActivityStreamsLikedProperty V)) :=
  let al := resolveAlias am
  match alookup (qualifiedName al "liked") m with
  | none => .ok none
  | some i =>
      match likedTryIRI al i with
      | some p => .ok (some p)
      | none =>
          match i with
          | .obj o =>
              match likedTryKinds reg al o am with
              | some p => .ok (some p)
              | none => .ok (some { aliasName := al, unknown := some i })
          | _ => .ok (some { aliasName := al, unknown := some i })

variable {P : Type u}

/-- Names of the 39 declared properties of the Question type, in the
declared order of the struct fields of gen_type_activitystreams_question,
which is also the order of deserialization, serialization, context
collection and comparison. -/
def questionPropertyNames : List String :=
  ["actor", "altitude", "anyOf", "attachment", "attributedTo", "audience",
   "bcc", "bto", "cc", "closed", "content", "context", "duration",
   "endTime", "generator", "icon", "id", "image", "inReplyTo",
   "instrument", "likes", "location", "mediaType", "name", "oneOf",
   "origin", "preview", "published", "replies", "result", "shares",
   "startTime", "summary", "tag", "target", "to", "type", "updated", "url"]

/-- The keys the unknown-collection loop of DeserializeQuestion skips: the
39 declared property names plus the three language-map companion keys, as
listed in the source's chain of continue branches. -/
def questionKnownKeys : List String :=
  ["actor", "altitude", "anyOf", "attachment", "attributedTo", "audience",
   "bcc", "bto", "cc", "closed", "content", "contentMap", "context",
   "duration", "endTime", "generator", "icon", "id", "image", "inReplyTo",
   "instrument", "likes", "location", "mediaType", "name", "nameMap",
   "oneOf", "origin", "preview", "published", "replies", "result",
   "shares", "startTime", "summary", "summaryMap", "tag", "target", "to",
   "type", "updated", "url"]

/-- Embedding of the ActivityStreamsQuestion struct. The 39 property
fields, which the generated code only ever touches uniformly and in
declared order, are embedded as a list of optional property values in
that declared order (see questionPropertyNames); P is the common carrier
for the opaque vocab property interface values, each an Option because Go
interface values may be nil. -/
structure ActivityStreamsQuestion (P : Type u) : Type u where
  props : List (Option P)
  aliasName : String
  unknown : JSONObj

/-- Signature of a registry property deserializer consulted by
DeserializeQuestion: it may fail, return no property (key absent), or
return a property value. -/
abbrev QuestionPropDeserializer (P : Type u) : Type u :=
  JSONObj → AliasMap → Except String (Option P)

/-- Check whether one element of a type array is a string naming the
Question type after alias-prefix stripping, as in the source's loop. -/
def questionTypeMatches (apfx : String) : JSONValue → Bool
  | .str s => trimPfx apfx s = "Question"
  | _ => false

/-- Embedding of the type-validation prologue of DeserializeQuestion: the
type key must be present and be the string Question after alias-prefix
stripping, or an array containing such a string; anything else is an
error. -/
def questionTypeOK (apfx : String) (m : JSONObj) : Except String Unit :=
  match alookup "type" m with
  | none => .error "no type property in map"
  | some (.str s) =>
      if trimPfx apfx s = "Question" then .ok ()
      else .error "type property is not of Question type"
  | some (.arr l) =>
      if l.any (questionTypeMatches apfx) then .ok ()
      else .error "could not find a type property of value Question"
  | some _ => .error "type property is unrecognized type"

/-- Run the registry property deserializers in declared order with
short-circuit on the first error, as the source's sequence of checked
mgr calls does. -/
def desAll (m : JSONObj) (am : AliasMap) :
    List (QuestionPropDeserializer P) → Except String (List (Option P))
  | [] => .ok []
  | d :: ds =>
      match d m am with
      | .error e => .error e
      | .ok p =>
          match desAll m am ds with
          | .error e => .error e
          | .ok ps => .ok (p :: ps)

/-- The alias prefix used by the type check of DeserializeQuestion: the
source sets aliasPrefix to the alias followed by a colon whenever the
alias map has an entry for the vocabulary namespace — even when that
alias is the empty string — and leaves it empty only when the entry is
absent. -/
def questionAliasPfx (am : AliasMap) : String :=
  match alookup vocabNS am with
  | some a => a ++ ":"
  | none => ""

/-- Embedding of DeserializeQuestion: validate the type key, run every
declared property deserializer in order propagating the first error, and
collect every input key outside the known-key list verbatim into the
unknown map. -/
def deserializeQuestion (ds : List (QuestionPropDeserializer P)) (m : JSONObj)
    (am : AliasMap) : Except String (ActivityStreamsQuestion P) :=
  let al := resolveAlias am
  match questionTypeOK (questionAliasPfx am) m with
  | .error e => .error e
  | .ok _ =>
      match desAll m am ds with
      | .error e => .error e
      | .ok ps =>
          .ok { props := ps, aliasName := al,
                unknown := m.filter fun kv => !(questionKnownKeys.contains kv.1) }

/-- One property-comparison block of the LessThan method of the Question
type. The source block is

  if lhs, rhs := this.X, o.GetX(); lhs != nil && rhs != nil then defer to
  lhs.LessThan and rhs.LessThan, else if lhs == nil && rhs != nil return
  true, else if rhs != nil && rhs == nil return false, else fall through.

The third condition, rhs != nil && rhs == nil, is unsatisfiable as
written, so the (some, none) case falls through to the next property just
like the (none, none) case; the embedding reproduces that literally. -/
def lessThanStep (ltP : P → P → Bool) (lhs rhs : Option P) : Option Bool :=
  match lhs, rhs with
  | some l, some r =>
      if ltP l r then some true
      else if ltP r l then some false
      else none
  | none, some _ => some true
  | some _, none => none
  | none, none => none

/-- Walk the declared property pairs in order and return the first block
decision, if any block decides. -/
def lessThanProps (ltP : P → P → Bool) :
    List (Option P) → List (Option P) → Option Bool
  | l :: ls, r :: rs =>
      match lessThanStep ltP l r with
      | some b => some b
      | none => lessThanProps ltP ls rs
  | _, _ => none

/-- Embedding of the LessThan method of the Question type: compare the
declared properties in order, then fall back to comparing the number of
unknown entries, and declare not-less when everything ties. -/
def lessThanQuestion (ltP : P → P → Bool) (a b : ActivityStreamsQuestion P) : Bool :=
  match lessThanProps ltP a.props b.props with
  | some r => r
  | none =>
      if a.unknown.length < b.unknown.length then true
      else if b.unknown.length < a.unknown.length then false
      else false

/-- Embedding of the known-property serialization loop of the Serialize
method of the Question type: each set property is serialized, an error
propagates, a nil result is skipped, and a value is stored in the output
map under the property's own name. -/
def serializeKnown (ser : P → Except String (Option JSONValue)) (name : P → String) :
    List (Option P) → JSONObj → Except String JSONObj
  | [], m => .ok m
  | none :: rest, m => serializeKnown ser name rest m
  | some p :: rest, m =>
      match ser p with
      | .error e => .error e
      | .ok none => serializeKnown ser name rest m
      | .ok (some i) => serializeKnown ser name rest (mapSet m (name p) i)

/-- Embedding of the unknown-serialization loop of the Serialize method:
each stored unknown entry is emitted only when its key is not already in
the output map. -/
def mergeUnknown (m : JSONObj) (unk : JSONObj) : JSONObj :=
  unk.foldl (fun acc kv => if (alookup kv.1 acc).isSome then acc else mapSet acc kv.1 kv.2) m

/-- Embedding of the Serialize method of the Question type: start from the
alias-qualified type entry, serialize the declared properties in order,
then merge the unknown entries that do not collide. -/
def serializeQuestion (ser : P → Except String (Option JSONValue)) (name : P → String)
    (q : ActivityStreamsQuestion P) : Except String JSONObj :=
  let typeName := if q.aliasName.length > 0 then q.aliasName ++ ":" ++ "Question" else "Question"
  match serializeKnown ser name q.props [("type", .str typeName)] with
  | .error e => .error e
  | .ok m => .ok (mergeUnknown m q.unknown)

/-- A Question with only the actor property set, over natural-number
property values; all other 38 declared properties are nil. -/
def questionActorOnly : ActivityStreamsQuestion Nat :=
  { props := some 1 :: List.replicate 38 none, aliasName := "", unknown := [] }

/-- A Question with only the altitude property set; the actor property and
the remaining 37 declared properties are nil. -/
def questionAltitudeOnly : ActivityStreamsQuestion Nat :=
  { props := none :: some 1 :: List.replicate 37 none, aliasName := "", unknown := [] }

/-- Claim C3: the LessThan method of the Question type is claimed to
return false as soon as this side's property is non-nil while the other
side's is nil. The generated comparison block instead tests the
unsatisfiable condition rhs != nil && rhs == nil, so that case falls
through: here the left Question has a non-nil actor against a nil one,
yet LessThan returns true because the comparison proceeds to the altitude
property, where the left side is nil and the right side is not. This
theorem evaluates the embedded code at that failing input. -/
theorem claimC3_code_eval :
    lessThanQuestion (fun a b : Nat => decide (a < b))
      questionActorOnly questionAltitudeOnly = true := rfl

/-- A partOf registry over the unit carrier whose deserializers all fail,
for concrete instantiations. -/
def regPartOfFail : PartOfRegistry Unit :=
  ⟨fun _ _ => .error "no", fun _ _ => .error "no", fun _ _ => .error "no",
   fun _ _ => .error "no", fun _ _ => .error "no", fun _ _ => .error "no"⟩

/-- A liked registry over the unit carrier whose deserializers all fail. -/
def regLikedFail : LikedRegistry Unit :=
  ⟨fun _ _ => .error "no", fun _ _ => .error "no", fun _ _ => .error "no",
   fun _ _ => .error "no"⟩

/-- A trivial serializer for unit vocab values. -/
def serUnit : Unit → Except String JSONValue := fun _ => .ok .null

/-- Claim C10: HasAny is true exactly when KindIndex is not -1, and a
property deserialized from a number or array value holds only an unknown
payload: HasAny is false and KindIndex is -1, yet Serialize returns the
stored payload. -/
theorem claimC10_hasAny_kindIndex {V : Type u} (p : ActivityStreamsPartOfProperty V)
    (reg : PartOfRegistry V) (ser : V → Except String JSONValue)
    (m : JSONObj) (am : AliasMap) (i : JSONValue) :
    (p.hasAny = true ↔ p.kindIndex ≠ -1) ∧
    (alookup (qualifiedName (resolveAlias am) "partOf") m = some i →
     ((∃ n, i = JSONValue.num n) ∨ (∃ l, i = JSONValue.arr l)) →
     ∃ p₂, deserializePartOfProperty reg m am = .ok (some p₂) ∧
       p₂.hasAny = false ∧ p₂.kindIndex = -1 ∧
       p₂.serialize ser = .ok (some i)) := by
  constructor
  · obtain ⟨lm, cm, cpm, mm, ocm, ocpm, unk, ir, al⟩ := p
    rcases lm with _ | lv <;> rcases cm with _ | cv <;> rcases cpm with _ | cpv <;>
      rcases mm with _ | mv <;> rcases ocm with _ | ocv <;> rcases ocpm with _ | ocpv <;>
      rcases ir with _ | irv <;>
      simp [ActivityStreamsPartOfProperty.hasAny, ActivityStreamsPartOfProperty.kindIndex,
        ActivityStreamsPartOfProperty.isActivityStreamsLink,
        ActivityStreamsPartOfProperty.isActivityStreamsCollection,
        ActivityStreamsPartOfProperty.isActivityStreamsCollectionPage,
        ActivityStreamsPartOfProperty.isActivityStreamsMention,
        ActivityStreamsPartOfProperty.isActivityStreamsOrderedCollection,
        ActivityStreamsPartOfProperty.isActivityStreamsOrderedCollectionPage,
        ActivityStreamsPartOfProperty.isIRI]
  · intro hlook hshape
    refine ⟨{ aliasName := resolveAlias am, unknown := some i }, ?_, ?_, ?_, ?_⟩
    · simp only [deserializePartOfProperty]
      rw [hlook]
      rcases hshape with ⟨n, hn⟩ | ⟨l, hl⟩
      · subst hn; rfl
      · subst hl; rfl
    · rcases hshape with ⟨n, hn⟩ | ⟨l, hl⟩ <;> rfl
    · rcases hshape with ⟨n, hn⟩ | ⟨l, hl⟩ <;> rfl
    · rcases hshape with ⟨n, hn⟩ | ⟨l, hl⟩ <;> rfl

/-- Witness for claim C10 at a property deserialized from a number. -/
theorem claimC10_witness :
    ∃ p₂ : ActivityStreamsPartOfProperty Unit,
      deserializePartOfProperty regPartOfFail [("partOf", JSONValue.num 3)] [] =
        .ok (some p₂) ∧
      p₂.hasAny = false ∧ p₂.kindIndex = -1 ∧
      p₂.serialize serUnit = .ok (some (JSONValue.num 3)) :=
  (claimC10_hasAny_kindIndex {} regPartOfFail serUnit
    [("partOf", JSONValue.num 3)] [] (JSONValue.num 3)).2 rfl (Or.inl ⟨3, rfl⟩)

/-- The Set mutators of the partOf property, as abstract operations; each
carries its Go argument, an interface or pointer value that may be nil. -/
inductive PartOfSetOp (V : Type u) : Type u where
  | setActivityStreamsLink (v : Option V)
  | setActivityStreamsCollection (v : Option V)
  | setActivityStreamsCollectionPage (v : Option V)
  | setActivityStreamsMention (v : Option V)
  | setActivityStreamsOrderedCollection (v : Option V)
  | setActivityStreamsOrderedCollectionPage (v : Option V)
  | setIRI (u : Option GoURL)

/-- Application of one Set call to a partOf property. -/
def PartOfSetOp.apply : PartOfSetOp V → ActivityStreamsPartOfProperty V →
    ActivityStreamsPartOfProperty V
  | .setActivityStreamsLink v, p => p.setActivityStreamsLink v
  | .setActivityStreamsCollection v, p => p.setActivityStreamsCollection v
  | .setActivityStreamsCollectionPage v, p => p.setActivityStreamsCollectionPage v
  | .setActivityStreamsMention v, p => p.setActivityStreamsMention v
  | .setActivityStreamsOrderedCollection v, p => p.setActivityStreamsOrderedCollection v
  | .setActivityStreamsOrderedCollectionPage v, p => p.setActivityStreamsOrderedCollectionPage v
  | .setIRI u, p => p.setIRI u

/-- Whether the argument of a Set call is a non-nil value. -/
def PartOfSetOp.argPresent : PartOfSetOp V → Bool
  | .setActivityStreamsLink v => v.isSome
  | .setActivityStreamsCollection v => v.isSome
  | .setActivityStreamsCollectionPage v => v.isSome
  | .setActivityStreamsMention v => v.isSome
  | .setActivityStreamsOrderedCollection v => v.isSome
  | .setActivityStreamsOrderedCollectionPage v => v.isSome
  | .setIRI u => u.isSome

/-- Application of a sequence of Set calls, first call first. -/
def applyPartOfOps (p : ActivityStreamsPartOfProperty V) (ops : List (PartOfSetOp V)) :
    ActivityStreamsPartOfProperty V :=
  ops.foldl (fun q op => op.apply q) p

/-- The seven kind predicates of the partOf property: the six Is methods
in declared order followed by IsIRI. -/
def partOfKindFlags (p : ActivityStreamsPartOfProperty V) : List Bool :=
  [p.isActivityStreamsLink, p.isActivityStreamsCollection,
   p.isActivityStreamsCollectionPage, p.isActivityStreamsMention,
   p.isActivityStreamsOrderedCollection, p.isActivityStreamsOrderedCollectionPage,
   p.isIRI]

/-- The Set mutators of the liked property. -/
inductive LikedSetOp (V : Type u) : Type u where
  | setActivityStreamsOrderedCollection (v : Option V)
  | setActivityStreamsCollection (v : Option V)
  | setActivityStreamsCollectionPage (v : Option V)
  | setActivityStreamsOrderedCollectionPage (v : Option V)
  | setIRI (u : Option GoURL)

/-- Application of one Set call to a liked property. -/
def LikedSetOp.apply : LikedSetOp V → ActivityStreamsLikedProperty V →
    ActivityStreamsLikedProperty V
  | .setActivityStreamsOrderedCollection v, p => p.setActivityStreamsOrderedCollection v
  | .setActivityStreamsCollection v, p => p.setActivityStreamsCollection v
  | .setActivityStreamsCollectionPage v, p => p.setActivityStreamsCollectionPage v
  | .setActivityStreamsOrderedCollectionPage v, p => p.setActivityStreamsOrderedCollectionPage v
  | .setIRI u, p => p.setIRI u

/-- Whether the argument of a liked Set call is a non-nil value. -/
def LikedSetOp.argPresent : LikedSetOp V → Bool
  | .setActivityStreamsOrderedCollection v => v.isSome
  | .setActivityStreamsCollection v => v.isSome
  | .setActivityStreamsCollectionPage v => v.isSome
  | .setActivityStreamsOrderedCollectionPage v => v.isSome
  | .setIRI u => u.isSome

/-- Application of a sequence of liked Set calls, first call first. -/
def applyLikedOps (p : ActivityStreamsLikedProperty V) (ops : List (LikedSetOp V)) :
    ActivityStreamsLikedProperty V :=
  ops.foldl (fun q op => op.apply q) p

/-- The five kind predicates of the liked property: the four Is methods
in declared order followed by IsIRI. -/
def likedKindFlags (p : ActivityStreamsLikedProperty V) : List Bool :=
  [p.isActivityStreamsOrderedCollection, p.isActivityStreamsCollection,
   p.isActivityStreamsCollectionPage, p.isActivityStreamsOrderedCollectionPage,
   p.isIRI]

/-- Claim C1 counterexample: a Set call whose Go argument is nil clears
every slot and stores nil, so afterwards no Is predicate is true at all,
refuting the claim that exactly one is true after any Set sequence. -/
theorem claimC1_counterexample :
    ¬ (partOfKindFlags (applyPartOfOps newActivityStreamsPartOfProperty
        [PartOfSetOp.setActivityStreamsCollection (V := Unit) none])).count true = 1 := by
  decide

/-- Claim C1 as amended: after any non-empty sequence of Set calls on a
partOf or liked property, the kind predicates of the final state are
determined by the last call alone: exactly one Is predicate (or IsIRI) is
true when the last call's argument is non-nil, and none is true when the
last call received a nil argument; in particular at most one predicate is
ever true. -/
theorem claimC1_amended {V : Type u} (p : ActivityStreamsPartOfProperty V)
    (q : ActivityStreamsLikedProperty V)
    (ops : List (PartOfSetOp V)) (op : PartOfSetOp V)
    (lops : List (LikedSetOp V)) (lop : LikedSetOp V) :
    (partOfKindFlags (applyPartOfOps p (ops ++ [op]))).count true =
      (if op.argPresent then 1 else 0) ∧
    (likedKindFlags (applyLikedOps q (lops ++ [lop]))).count true =
      (if lop.argPresent then 1 else 0) := by
  constructor
  · have hfold : applyPartOfOps p (ops ++ [op]) = op.apply (applyPartOfOps p ops) := by
      simp [applyPartOfOps]
    rw [hfold]
    cases op with
    | setActivityStreamsLink v => rcases v with _ | x <;> rfl
    | setActivityStreamsCollection v => rcases v with _ | x <;> rfl
    | setActivityStreamsCollectionPage v => rcases v with _ | x <;> rfl
    | setActivityStreamsMention v => rcases v with _ | x <;> rfl
    | setActivityStreamsOrderedCollection v => rcases v with _ | x <;> rfl
    | setActivityStreamsOrderedCollectionPage v => rcases v with _ | x <;> rfl
    | setIRI u => rcases u with _ | x <;> rfl
  · have hfold : applyLikedOps q (lops ++ [lop]) = lop.apply (applyLikedOps q lops) := by
      simp [applyLikedOps]
    rw [hfold]
    cases lop with
    | setActivityStreamsOrderedCollection v => rcases v with _ | x <;> rfl
    | setActivityStreamsCollection v => rcases v with _ | x <;> rfl
    | setActivityStreamsCollectionPage v => rcases v with _ | x <;> rfl
    | setActivityStreamsOrderedCollectionPage v => rcases v with _ | x <;> rfl
    | setIRI u => rcases u with _ | x <;> rfl

/-- A context function whose single entry re-declares the vocabulary
namespace under a different alias, as the generated JSONLDContext of any
stored vocabulary value does when its own alias differs. -/
def ctxOther : Unit → List (String × String) := fun _ => [(vocabNS, "other")]

/-- A partOf property holding a Collection value and the empty alias. -/
def partOfCollectionOnly : ActivityStreamsPartOfProperty Unit :=
  { activitystreamsCollectionMember := some (), aliasName := "" }

/-- Claim C2 counterexample: the merge loop of JSONLDContext is a plain
map assignment, so a populated kind whose own context declares the
vocabulary namespace under a different alias overwrites the entry for the
instance's alias: the result maps the namespace to the child's alias
"other", not to the instance's alias, which is empty. -/
theorem claimC2_counterexample :
    alookup vocabNS
        (ActivityStreamsPartOfProperty.jsonLDContext ctxOther partOfCollectionOnly) =
      some "other" ∧
    partOfCollectionOnly.aliasName = "" ∧ ("other" : String) ≠ "" := by
  refine ⟨rfl, rfl, ?_⟩
  decide

/-- Claim C2 as amended: JSONLDContext starts from the vocabulary
namespace entry for the instance's alias and assigns the populated kind's
context entries over it, so a child entry whose key is already present
replaces the existing value (last writer wins); every key resolves to the
child's latest binding when the child context declares it, and to the
base entry otherwise, for both the partOf and the liked property. -/
theorem claimC2_amended {V : Type u} (p : ActivityStreamsPartOfProperty V)
    (q : ActivityStreamsLikedProperty V) (ctx : V → List (String × String)) (k : String) :
    (alookup k (p.jsonLDContext ctx) =
      match alookup k (p.childContext ctx).reverse with
      | some v => some v
      | none => if k = vocabNS then some p.aliasName else none) ∧
    (alookup k (q.jsonLDContext ctx) =
      match alookup k (q.childContext ctx).reverse with
      | some v => some v
      | none => if k = vocabNS then some q.aliasName else none) := by
  constructor
  · rw [ActivityStreamsPartOfProperty.jsonLDContext, alookup_assignAll]
    cases alookup k (p.childContext ctx).reverse with
    | some v => rfl
    | none =>
        by_cases h : k = vocabNS
        · subst h; simp [alookup]
        · have h₂ : ¬ vocabNS = k := fun hh => h hh.symm
          simp [alookup, h, h₂]
  · rw [ActivityStreamsLikedProperty.jsonLDContext, alookup_assignAll]
    cases alookup k (q.childContext ctx).reverse with
    | some v => rfl
    | none =>
        by_cases h : k = vocabNS
        · subst h; simp [alookup]
        · have h₂ : ¬ vocabNS = k := fun hh => h hh.symm
          simp [alookup, h, h₂]

/-- Claim C4: when the property key holds a nested map, the candidate kind
deserializers are tried in the property's declared order and the first
success wins. For the liked property the order is OrderedCollection,
Collection, CollectionPage, OrderedCollectionPage — in particular a map
accepted by both the OrderedCollection and the Collection deserializer
resolves to OrderedCollection — and for the partOf property the order is
Link, Collection, CollectionPage, Mention, OrderedCollection,
OrderedCollectionPage. -/
theorem claimC4_dispatch_order {V : Type u} (preg : PartOfRegistry V)
    (lreg : LikedRegistry V) (m : JSONObj) (am : AliasMap) (o : JSONObj) :
    (alookup (qualifiedName (resolveAlias am) "liked") m = some (.obj o) →
      (∀ v, lreg.deserializeOrderedCollection o am = .ok v →
        deserializeLikedProperty lreg m am = .ok (some
          { activitystreamsOrderedCollectionMember := some v,
            aliasName := resolveAlias am })) ∧
      (∀ v w, lreg.deserializeOrderedCollection o am = .ok v →
        lreg.deserializeCollection o am = .ok w →
        deserializeLikedProperty lreg m am = .ok (some
          { activitystreamsOrderedCollectionMember := some v,
            aliasName := resolveAlias am })) ∧
      (∀ e v, lreg.deserializeOrderedCollection o am = .error e →
        lreg.deserializeCollection o am = .ok v →
        deserializeLikedProperty lreg m am = .ok (some
          { activitystreamsCollectionMember := some v,
            aliasName := resolveAlias am })) ∧
      (∀ e₁ e₂ v, lreg.deserializeOrderedCollection o am = .error e₁ →
        lreg.deserializeCollection o am = .error e₂ →
        lreg.deserializeCollectionPage o am = .ok v →
        deserializeLikedProperty lreg m am = .ok (some
          { activitystreamsCollectionPageMember := some v,
            aliasName := resolveAlias am })) ∧
      (∀ e₁ e₂ e₃ v, lreg.deserializeOrderedCollection o am = .error e₁ →
        lreg.deserializeCollection o am = .error e₂ →
        lreg.deserializeCollectionPage o am = .error e₃ →
        lreg.deserializeOrderedCollectionPage o am = .ok v →
        deserializeLikedProperty lreg m am = .ok (some
          { activitystreamsOrderedCollectionPageMember := some v,
            aliasName := resolveAlias am }))) ∧
    (alookup (qualifiedName (resolveAlias am) "partOf") m = some (.obj o) →
      (∀ v, preg.deserializeLink o am = .ok v →
        deserializePartOfProperty preg m am = .ok (some
          { activitystreamsLinkMember := some v, aliasName := resolveAlias am })) ∧
      (∀ e v, preg.deserializeLink o am = .error e →
        preg.deserializeCollection o am = .ok v →
        deserializePartOfProperty preg m am = .ok (some
          { activitystreamsCollectionMember := some v, aliasName := resolveAlias am })) ∧
      (∀ e₁ e₂ v, preg.deserializeLink o am = .error e₁ →
        preg.deserializeCollection o am = .error e₂ →
        preg.deserializeCollectionPage o am = .ok v →
        deserializePartOfProperty preg m am = .ok (some
          { activitystreamsCollectionPageMember := some v, aliasName := resolveAlias am })) ∧
      (∀ e₁ e₂ e₃ v, preg.deserializeLink o am = .error e₁ →
        preg.deserializeCollection o am = .error e₂ →
        preg.deserializeCollectionPage o am = .error e₃ →
        preg.deserializeMention o am = .ok v →
        deserializePartOfProperty preg m am = .ok (some
          { activitystreamsMentionMember := some v, aliasName := resolveAlias am })) ∧
      (∀ e₁ e₂ e₃ e₄ v, preg.deserializeLink o am = .error e₁ →
        preg.deserializeCollection o am = .error e₂ →
        preg.deserializeCollectionPage o am = .error e₃ →
        preg.deserializeMention o am = .error e₄ →
        preg.deserializeOrderedCollection o am = .ok v →
        deserializePartOfProperty preg m am = .ok (some
          { activitystreamsOrderedCollectionMember := some v,
            aliasName := resolveAlias am })) ∧
      (∀ e₁ e₂ e₃ e₄ e₅ v, preg.deserializeLink o am = .error e₁ →
        preg.deserializeCollection o am = .error e₂ →
        preg.deserializeCollectionPage o am = .error e₃ →
        preg.deserializeMention o am = .error e₄ →
        preg.deserializeOrderedCollection o am = .error e₅ →
        preg.deserializeOrderedCollectionPage o am = .ok v →
        deserializePartOfProperty preg m am = .ok (some
          { activitystreamsOrderedCollectionPageMember := some v,
            aliasName := resolveAlias am }))) := by
  constructor
  · intro hm
    refine ⟨?_, ?_, ?_, ?_, ?_⟩
    · intro v h₁
      simp only [deserializeLikedProperty]
      rw [hm]
      simp [likedTryIRI, likedTryKinds, h₁]
    · intro v w h₁ h₂
      simp only [deserializeLikedProperty]
      rw [hm]
      simp [likedTryIRI, likedTryKinds, h₁]
    · intro e v h₁ h₂
      simp only [deserializeLikedProperty]
      rw [hm]
      simp [likedTryIRI, likedTryKinds, h₁, h₂]
    · intro e₁ e₂ v h₁ h₂ h₃
      simp only [deserializeLikedProperty]
      rw [hm]
      simp [likedTryIRI, likedTryKinds, h₁, h₂, h₃]
    · intro e₁ e₂ e₃ v h₁ h₂ h₃ h₄
      simp only [deserializeLikedProperty]
      rw [hm]
      simp [likedTryIRI, likedTryKinds, h₁, h₂, h₃, h₄]
  · intro hm
    refine ⟨?_, ?_, ?_, ?_, ?_, ?_⟩
    · intro v h₁
      simp only [deserializePartOfProperty]
      rw [hm]
      simp [partOfTryIRI, partOfTryKinds, h₁]
    · intro e v h₁ h₂
      simp only [deserializePartOfProperty]
      rw [hm]
      simp [partOfTryIRI, partOfTryKinds, h₁, h₂]
    · intro e₁ e₂ v h₁ h₂ h₃
      simp only [deserializePartOfProperty]
      rw [hm]
      simp [partOfTryIRI, partOfTryKinds, h₁, h₂, h₃]
    · intro e₁ e₂ e₃ v h₁ h₂ h₃ h₄
      simp only [deserializePartOfProperty]
      rw [hm]
      simp [partOfTryIRI, partOfTryKinds, h₁, h₂, h₃, h₄]
    · intro e₁ e₂ e₃ e₄ v h₁ h₂ h₃ h₄ h₅
      simp only [deserializePartOfProperty]
      rw [hm]
      simp [partOfTryIRI, partOfTryKinds, h₁, h₂, h₃, h₄, h₅]
    · intro e₁ e₂ e₃ e₄ e₅ v h₁ h₂ h₃ h₄ h₅ h₆
      simp only [deserializePartOfProperty]
      rw [hm]
      simp [partOfTryIRI, partOfTryKinds, h₁, h₂, h₃, h₄, h₅, h₆]

/-- A liked registry where both OrderedCollection and Collection accept
every map, the ambiguous case of claim C4. -/
def regLikedAmbig : LikedRegistry Unit :=
  ⟨fun _ _ => .ok (), fun _ _ => .ok (), fun _ _ => .error "no", fun _ _ => .error "no"⟩

/-- A partOf registry where every candidate accepts every map. -/
def regPartOfAllOk : PartOfRegistry Unit :=
  ⟨fun _ _ => .ok (), fun _ _ => .ok (), fun _ _ => .ok (),
   fun _ _ => .ok (), fun _ _ => .ok (), fun _ _ => .ok ()⟩

/-- Witness for claim C4: a map accepted by both the OrderedCollection
and the Collection deserializer resolves the liked property to
OrderedCollection, and a map accepted by every partOf candidate resolves
the partOf property to Link, the first declared kind. -/
theorem claimC4_witness :
    deserializeLikedProperty regLikedAmbig
        [("liked", JSONValue.obj []), ("partOf", JSONValue.obj [])] [] =
      .ok (some { activitystreamsOrderedCollectionMember := some (), aliasName := "" }) ∧
    deserializePartOfProperty regPartOfAllOk
        [("liked", JSONValue.obj []), ("partOf", JSONValue.obj [])] [] =
      .ok (some { activitystreamsLinkMember := some (), aliasName := "" }) := by
  constructor
  · exact (((claimC4_dispatch_order regPartOfAllOk regLikedAmbig
      [("liked", JSONValue.obj []), ("partOf", JSONValue.obj [])] [] []).1 rfl).2.1
      () () rfl rfl)
  · exact (((claimC4_dispatch_order regPartOfAllOk regLikedAmbig
      [("liked", JSONValue.obj []), ("partOf", JSONValue.obj [])] [] []).2 rfl).1
      () rfl)

/-- Claim C5: a string property value is stored as an IRI exactly when URL
parsing succeeds and the parsed URL has a non-empty scheme; otherwise the
string falls through to the unknown slot. Stated for both the partOf and
the liked property, for every registry behaviour. -/
theorem claimC5_iri_scheme {V : Type u} (preg : PartOfRegistry V)
    (lreg : LikedRegistry V) (m : JSONObj) (am : AliasMap) (s : String) :
    (alookup (qualifiedName (resolveAlias am) "partOf") m = some (.str s) →
      (∀ u, urlParse s = some u → u.scheme.length > 0 →
        deserializePartOfProperty preg m am = .ok (some
          { iri := some u, aliasName := resolveAlias am })) ∧
      ((urlParse s = none ∨ ∃ u, urlParse s = some u ∧ u.scheme.length = 0) →
        deserializePartOfProperty preg m am = .ok (some
          { unknown := some (.str s), aliasName := resolveAlias am }))) ∧
    (alookup (qualifiedName (resolveAlias am) "liked") m = some (.str s) →
      (∀ u, urlParse s = some u → u.scheme.length > 0 →
        deserializeLikedProperty lreg m am = .ok (some
          { iri := some u, aliasName := resolveAlias am })) ∧
      ((urlParse s = none ∨ ∃ u, urlParse s = some u ∧ u.scheme.length = 0) →
        deserializeLikedProperty lreg m am = .ok (some
          { unknown := some (.str s), aliasName := resolveAlias am }))) := by
  constructor
  · intro hm
    constructor
    · intro u hu hsch
      simp only [deserializePartOfProperty]
      rw [hm]
      simp [partOfTryIRI, hu, hsch]
    · intro hcase
      simp only [deserializePartOfProperty]
      rw [hm]
      rcases hcase with hn | ⟨u, hu, hz⟩
      · simp [partOfTryIRI, hn]
      · simp [partOfTryIRI, hu, hz]
  · intro hm
    constructor
    · intro u hu hsch
      simp only [deserializeLikedProperty]
      rw [hm]
      simp [likedTryIRI, hu, hsch]
    · intro hcase
      simp only [deserializeLikedProperty]
      rw [hm]
      rcases hcase with hn | ⟨u, hu, hz⟩
      · simp [likedTryIRI, hn]
      · simp [likedTryIRI, hu, hz]

/-- Witness for claim C5: the schemed string is stored as an IRI on the
partOf property, and the scheme-less string falls to the unknown slot on
the liked property. -/
theorem claimC5_witness :
    deserializePartOfProperty regPartOfFail
        [("partOf", JSONValue.str "https://ex.example/x"),
         ("liked", JSONValue.str "noscheme")] [] =
      .ok (some { iri := some ⟨"https", "//ex.example/x"⟩, aliasName := "" }) ∧
    deserializeLikedProperty regLikedFail
        [("partOf", JSONValue.str "https://ex.example/x"),
         ("liked", JSONValue.str "noscheme")] [] =
      .ok (some { unknown := some (JSONValue.str "noscheme"), aliasName := "" }) := by
  constructor
  · exact ((claimC5_iri_scheme regPartOfFail regLikedFail
      [("partOf", JSONValue.str "https://ex.example/x"),
       ("liked", JSONValue.str "noscheme")] [] "https://ex.example/x").1 rfl).1
      ⟨"https", "//ex.example/x"⟩ rfl (by decide)
  · exact ((claimC5_iri_scheme regPartOfFail regLikedFail
      [("partOf", JSONValue.str "https://ex.example/x"),
       ("liked", JSONValue.str "noscheme")] [] "noscheme").2 rfl).2
      (Or.inr ⟨⟨"", "noscheme"⟩, rfl, rfl⟩)

/-- Claim C6: DeserializePartOfProperty never returns an error, whatever
the registry deserializers do; its result is nil exactly when the
possibly alias-qualified key is absent; and a present value that is
neither a schemed IRI string nor a map accepted by some candidate
deserializer is stored verbatim in the unknown slot. -/
theorem claimC6_never_errors {V : Type u} (reg : PartOfRegistry V)
    (m : JSONObj) (am : AliasMap) :
    (∃ r, deserializePartOfProperty reg m am = .ok r) ∧
    (deserializePartOfProperty reg m am = .ok none ↔
      alookup (qualifiedName (resolveAlias am) "partOf") m = none) ∧
    (∀ i, alookup (qualifiedName (resolveAlias am) "partOf") m = some i →
      (∀ s, i = JSONValue.str s → ¬ ∃ u, urlParse s = some u ∧ u.scheme.length > 0) →
      (∀ o, i = JSONValue.obj o →
        (∃ e, reg.deserializeLink o am = .error e) ∧
        (∃ e, reg.deserializeCollection o am = .error e) ∧
        (∃ e, reg.deserializeCollectionPage o am = .error e) ∧
        (∃ e, reg.deserializeMention o am = .error e) ∧
        (∃ e, reg.deserializeOrderedCollection o am = .error e) ∧
        (∃ e, reg.deserializeOrderedCollectionPage o am = .error e)) →
      deserializePartOfProperty reg m am = .ok (some
        { unknown := some i, aliasName := resolveAlias am })) := by
  have hsome : ∀ i, alookup (qualifiedName (resolveAlias am) "partOf") m = some i →
      ∃ p, deserializePartOfProperty reg m am = .ok (some p) := by
    intro i hl
    cases hv : partOfTryIRI (resolveAlias am) i with
    | some p =>
        exact ⟨p, by simp only [deserializePartOfProperty]; rw [hl]; simp [hv]⟩
    | none =>
        cases i with
        | obj o =>
            cases hk : partOfTryKinds reg (resolveAlias am) o am with
            | some p =>
                exact ⟨p, by simp only [deserializePartOfProperty]; rw [hl]; simp [hv, hk]⟩
            | none =>
                refine ⟨{ unknown := some (JSONValue.obj o), aliasName := resolveAlias am }, ?_⟩
                simp only [deserializePartOfProperty]; rw [hl]; simp [hv, hk]
        | str s =>
            refine ⟨{ unknown := some (JSONValue.str s), aliasName := resolveAlias am }, ?_⟩
            simp only [deserializePartOfProperty]; rw [hl]; simp [hv]
        | num n =>
            refine ⟨{ unknown := some (JSONValue.num n), aliasName := resolveAlias am }, ?_⟩
            simp only [deserializePartOfProperty]; rw [hl]; simp [hv]
        | bool b =>
            refine ⟨{ unknown := some (JSONValue.bool b), aliasName := resolveAlias am }, ?_⟩
            simp only [deserializePartOfProperty]; rw [hl]; simp [hv]
        | null =>
            refine ⟨{ unknown := some JSONValue.null, aliasName := resolveAlias am }, ?_⟩
            simp only [deserializePartOfProperty]; rw [hl]; simp [hv]
        | arr l =>
            refine ⟨{ unknown := some (JSONValue.arr l), aliasName := resolveAlias am }, ?_⟩
            simp only [deserializePartOfProperty]; rw [hl]; simp [hv]
  refine ⟨?_, ?_, ?_⟩
  · cases hl : alookup (qualifiedName (resolveAlias am) "partOf") m with
    | none =>
        refine ⟨none, ?_⟩
        simp only [deserializePartOfProperty]; rw [hl]
    | some i =>
        obtain ⟨p, hp⟩ := hsome i hl
        exact ⟨some p, hp⟩
  · constructor
    · intro hr
      cases hl : alookup (qualifiedName (resolveAlias am) "partOf") m with
      | none => rfl
      | some i =>
          obtain ⟨p, hp⟩ := hsome i hl
          rw [hp] at hr
          simp at hr
    · intro hl
      simp only [deserializePartOfProperty]; rw [hl]
  · intro i hm hstr hobj
    simp only [deserializePartOfProperty]
    rw [hm]
    cases i with
    | str s =>
        have hns := hstr s rfl
        cases hu : urlParse s with
        | none => simp [partOfTryIRI, hu]
        | some u =>
            have hz : ¬ u.scheme.length > 0 := fun hgt => hns ⟨u, hu, hgt⟩
            simp [partOfTryIRI, hu, hz]
    | obj o =>
        obtain ⟨⟨e₁, h₁⟩, ⟨e₂, h₂⟩, ⟨e₃, h₃⟩, ⟨e₄, h₄⟩, ⟨e₅, h₅⟩, ⟨e₆, h₆⟩⟩ := hobj o rfl
        simp [partOfTryIRI, partOfTryKinds, h₁, h₂, h₃, h₄, h₅, h₆]
    | num n => rfl
    | bool b => rfl
    | null => rfl
    | arr l => rfl

/-- Witness for claim C6: a scheme-less string under the partOf key makes
deserialization succeed with the raw string stored in the unknown slot. -/
theorem claimC6_witness :
    (∃ r, deserializePartOfProperty regPartOfFail
        [("partOf", JSONValue.str "plainfile")] [] = .ok r) ∧
    deserializePartOfProperty regPartOfFail
        [("partOf", JSONValue.str "plainfile")] [] =
      .ok (some { unknown := some (JSONValue.str "plainfile"), aliasName := "" }) := by
  refine ⟨(claimC6_never_errors regPartOfFail
    [("partOf", JSONValue.str "plainfile")] []).1, ?_⟩
  refine (claimC6_never_errors regPartOfFail
    [("partOf", JSONValue.str "plainfile")] []).2.2
    (JSONValue.str "plainfile") rfl ?_ (fun o h => nomatch h)
  intro s hs
  cases hs
  rintro ⟨u, hu, hl⟩
  have h0 : urlParse "plainfile" = some (⟨"", "plainfile"⟩ : GoURL) := rfl
  rw [h0] at hu
  have hueq := Option.some.inj hu
  rw [← hueq] at hl
  exact absurd hl (by decide)

/-- Claim C8: deserializing a partOf value that is a string with a URL
scheme and then serializing the property yields the identical string. -/
theorem claimC8_roundtrip {V : Type u} (reg : PartOfRegistry V)
    (ser : V → Except String JSONValue) (m : JSONObj) (am : AliasMap)
    (s : String) (u : GoURL)
    (hm : alookup (qualifiedName (resolveAlias am) "partOf") m = some (JSONValue.str s))
    (hu : urlParse s = some u) (hs : u.scheme.length > 0) :
    ∃ p, deserializePartOfProperty reg m am = .ok (some p) ∧
      p.serialize ser = .ok (some (JSONValue.str s)) := by
  refine ⟨{ iri := some u, aliasName := resolveAlias am }, ?_, ?_⟩
  · simp only [deserializePartOfProperty]
    rw [hm]
    simp [partOfTryIRI, hu, hs]
  · have hne : u.scheme ≠ "" := by
      intro h0
      rw [h0] at hs
      simp at hs
    have hrt := urlString_urlParse s u hu hne
    simp [ActivityStreamsPartOfProperty.serialize, hrt]

/-- Witness for claim C8 at the schemed string of the spec's example. -/
theorem claimC8_witness :
    ∃ p : ActivityStreamsPartOfProperty Unit,
      deserializePartOfProperty regPartOfFail
        [("partOf", JSONValue.str "https://ex.example/x")] [] = .ok (some p) ∧
      p.serialize serUnit = .ok (some (JSONValue.str "https://ex.example/x")) :=
  claimC8_roundtrip regPartOfFail serUnit
    [("partOf", JSONValue.str "https://ex.example/x")] []
    "https://ex.example/x" ⟨"https", "//ex.example/x"⟩ rfl rfl (by decide)

theorem desAll_ok_iff {P : Type u} (m : JSONObj) (am : AliasMap)
    (ds : List (QuestionPropDeserializer P)) :
    (∃ ps, desAll m am ds = .ok ps) ↔ ∀ d ∈ ds, ∃ r, d m am = .ok r := by
  induction ds with
  | nil =>
      simp [desAll]
  | cons d ds ih =>
      cases hd : d m am with
      | error e =>
          simp only [desAll, hd]
          constructor
          · rintro ⟨ps, hps⟩
            exact absurd hps (by simp)
          · intro hall
            obtain ⟨r, hr⟩ := hall d (List.mem_cons_self d ds)
            rw [hd] at hr
            exact absurd hr (by simp)
      | ok p =>
          cases hrec : desAll m am ds with
          | error e =>
              simp only [desAll, hd, hrec]
              constructor
              · rintro ⟨ps, hps⟩
                exact absurd hps (by simp)
              · intro hall
                have hall₂ : ∀ d₂ ∈ ds, ∃ r, d₂ m am = .ok r :=
                  fun d₂ hmem => hall d₂ (List.mem_cons_of_mem d hmem)
                obtain ⟨ps, hps⟩ := ih.mpr hall₂
                rw [hrec] at hps
                exact absurd hps (by simp)
          | ok ps =>
              simp only [desAll, hd, hrec]
              constructor
              · rintro ⟨ps₂, hps⟩ d₂ hmem
                rcases List.mem_cons.mp hmem with h | h
                · subst h
                  exact ⟨p, hd⟩
                · exact (ih.mp ⟨ps, hrec⟩) d₂ h
              · intro hall
                exact ⟨p :: ps, rfl⟩

theorem questionTypeOK_error_iff (apfx : String) (m : JSONObj) :
    (∃ e, questionTypeOK apfx m = .error e) ↔
      (alookup "type" m = none ∨
       (∃ s, alookup "type" m = some (JSONValue.str s) ∧ ¬ trimPfx apfx s = "Question") ∨
       (∃ l, alookup "type" m = some (JSONValue.arr l) ∧
          ∀ x ∈ l, ∀ s, x = JSONValue.str s → ¬ trimPfx apfx s = "Question") ∨
       (∃ v, alookup "type" m = some v ∧ (match v with
          | JSONValue.str _ => False
          | JSONValue.arr _ => False
          | _ => True))) := by
  cases hl : alookup "type" m with
  | none =>
      simp [questionTypeOK, hl]
  | some v =>
      cases v with
      | str s =>
          by_cases ht : trimPfx apfx s = "Question"
          · simp [questionTypeOK, hl, ht]
          · simp [questionTypeOK, hl, ht]
      | arr l =>
          by_cases ha : l.any (questionTypeMatches apfx) = true
          · simp only [questionTypeOK, hl, ha, if_pos]
            constructor
            · rintro ⟨e, he⟩
              exact absurd he (by simp)
            · rintro (h | ⟨s, hs, _⟩ | ⟨l₂, hl₂, hall⟩ | ⟨w, hw, hother⟩)
              · exact absurd h (by simp)
              · exact absurd hs (by simp)
              · exfalso
                have hinj := Option.some.inj hl₂
                have hleq : l = l₂ := by
                  injection hinj
                subst hleq
                simp only [List.any_eq_true] at ha
                obtain ⟨x, hx, hmatch⟩ := ha
                cases x with
                | str s₂ =>
                    have hq : trimPfx apfx s₂ = "Question" := by
                      simpa [questionTypeMatches] using hmatch
                    exact hall _ hx s₂ rfl hq
                | num n => simp [questionTypeMatches] at hmatch
                | bool b => simp [questionTypeMatches] at hmatch
                | null => simp [questionTypeMatches] at hmatch
                | arr l₃ => simp [questionTypeMatches] at hmatch
                | obj o => simp [questionTypeMatches] at hmatch
              · exfalso
                have hinj := Option.some.inj hw
                rw [← hinj] at hother
                exact hother
          · have ha₂ : l.any (questionTypeMatches apfx) = false := by
              simpa using ha
            simp only [questionTypeOK, hl, ha₂]
            constructor
            · intro _
              refine Or.inr (Or.inr (Or.inl ⟨l, rfl, ?_⟩))
              intro x hx s hxs ht
              have hfx := (List.any_eq_false.mp ha₂) x hx
              rw [hxs] at hfx
              simp [questionTypeMatches, ht] at hfx
            · intro _
              exact ⟨"could not find a type property of value Question", by simp⟩
      | num n => simp [questionTypeOK, hl]
      | bool b => simp [questionTypeOK, hl]
      | null => simp [questionTypeOK, hl]
      | obj o => simp [questionTypeOK, hl]

/-- Claim C7: DeserializeQuestion returns an error exactly when the type
key is missing, or is a string other than Question after alias-prefix
stripping, or is an array with no such string, or is neither a string nor
an array — or else when some declared property deserializer fails; when
the type check passes and no property deserializer errors, it succeeds. -/
theorem claimC7_type_errors {P : Type u} (ds : List (QuestionPropDeserializer P))
    (m : JSONObj) (am : AliasMap) :
    (∃ e, deserializeQuestion ds m am = .error e) ↔
      (alookup "type" m = none ∨
       (∃ s, alookup "type" m = some (JSONValue.str s) ∧
          ¬ trimPfx (questionAliasPfx am) s = "Question") ∨
       (∃ l, alookup "type" m = some (JSONValue.arr l) ∧
          ∀ x ∈ l, ∀ s, x = JSONValue.str s →
            ¬ trimPfx (questionAliasPfx am) s = "Question") ∨
       (∃ v, alookup "type" m = some v ∧ (match v with
          | JSONValue.str _ => False
          | JSONValue.arr _ => False
          | _ => True)) ∨
       ∃ d ∈ ds, ∃ e, d m am = .error e) := by
  cases hq : questionTypeOK (questionAliasPfx am) m with
  | error e =>
      have htb := (questionTypeOK_error_iff (questionAliasPfx am) m).mp ⟨e, hq⟩
      constructor
      · intro _
        rcases htb with h | h | h | h
        · exact Or.inl h
        · exact Or.inr (Or.inl h)
        · exact Or.inr (Or.inr (Or.inl h))
        · exact Or.inr (Or.inr (Or.inr (Or.inl h)))
      · intro _
        refine ⟨e, ?_⟩
        simp only [deserializeQuestion]
        rw [hq]
  | ok u =>
      have hnotb : ¬ (alookup "type" m = none ∨
          (∃ s, alookup "type" m = some (JSONValue.str s) ∧
             ¬ trimPfx (questionAliasPfx am) s = "Question") ∨
          (∃ l, alookup "type" m = some (JSONValue.arr l) ∧
             ∀ x ∈ l, ∀ s, x = JSONValue.str s →
               ¬ trimPfx (questionAliasPfx am) s = "Question") ∨
          (∃ v, alookup "type" m = some v ∧ (match v with
             | JSONValue.str _ => False
             | JSONValue.arr _ => False
             | _ => True))) := by
        intro htb
        obtain ⟨e, he⟩ := (questionTypeOK_error_iff (questionAliasPfx am) m).mpr htb
        rw [hq] at he
        exact absurd he (by simp)
      cases hd : desAll m am ds with
      | error e =>
          have hsomefail : ∃ d ∈ ds, ∃ e₂, d m am = .error e₂ := by
            by_contra hno
            push_neg at hno
            have hall : ∀ d ∈ ds, ∃ r, d m am = .ok r := by
              intro d hmem
              cases hdm : d m am with
              | ok r => exact ⟨r, rfl⟩
              | error e₂ => exact absurd hdm (hno d hmem e₂)
            obtain ⟨ps, hps⟩ := (desAll_ok_iff m am ds).mpr hall
            rw [hd] at hps
            exact absurd hps (by simp)
          constructor
          · intro _
            exact Or.inr (Or.inr (Or.inr (Or.inr hsomefail)))
          · intro _
            refine ⟨e, ?_⟩
            simp only [deserializeQuestion]
            rw [hq, hd]
      | ok ps =>
          constructor
          · rintro ⟨e, he⟩
            exfalso
            simp only [deserializeQuestion] at he
            rw [hq, hd] at he
            exact absurd he (by simp)
          · rintro (h | h | h | h | h)
            · exact absurd (Or.inl h) hnotb
            · exact absurd (Or.inr (Or.inl h)) hnotb
            · exact absurd (Or.inr (Or.inr (Or.inl h))) hnotb
            · exact absurd (Or.inr (Or.inr (Or.inr h))) hnotb
            · obtain ⟨d, hmem, e, he⟩ := h
              obtain ⟨r, hr⟩ := (desAll_ok_iff m am ds).mp ⟨ps, hd⟩ d hmem
              rw [hr] at he
              exact absurd he (by simp)

theorem alookup_mergeUnknown_left (m unk : JSONObj) (k : String) (w : JSONValue)
    (h : alookup k m = some w) : alookup k (mergeUnknown m unk) = some w := by
  revert h
  induction unk generalizing m with
  | nil => intro h; exact h
  | cons kv rest ih =>
      intro h
      obtain ⟨k₀, v₀⟩ := kv
      have hstep : mergeUnknown m ((k₀, v₀) :: rest) =
          mergeUnknown (if (alookup k₀ m).isSome then m else mapSet m k₀ v₀) rest := rfl
      rw [hstep]
      by_cases hs : (alookup k₀ m).isSome
      · rw [if_pos hs]
        exact ih m h
      · rw [if_neg hs]
        apply ih
        rw [alookup_mapSet]
        by_cases hkk : k₀ = k
        · subst hkk
          rw [h] at hs
          simp at hs
        · rw [if_neg hkk]
          exact h

theorem alookup_mergeUnknown_right (m unk : JSONObj) (k : String) (v : JSONValue)
    (hm : alookup k m = none) (hu : alookup k unk = some v) :
    alookup k (mergeUnknown m unk) = some v := by
  revert hm hu
  induction unk generalizing m with
  | nil => intro hm hu; simp [alookup] at hu
  | cons kv rest ih =>
      intro hm hu
      obtain ⟨k₀, v₀⟩ := kv
      have hstep : mergeUnknown m ((k₀, v₀) :: rest) =
          mergeUnknown (if (alookup k₀ m).isSome then m else mapSet m k₀ v₀) rest := rfl
      rw [hstep]
      by_cases hkk : k₀ = k
      · subst hkk
        have hv : v₀ = v := by simpa [alookup] using hu
        rw [hm]
        simp only [Option.isSome_none, Bool.false_eq_true, if_false]
        apply alookup_mergeUnknown_left
        rw [alookup_mapSet]
        simp [hv]
      · have hu₂ : alookup k rest = some v := by
          simpa [alookup, hkk] using hu
        by_cases hs : (alookup k₀ m).isSome
        · rw [if_pos hs]
          exact ih m hm hu₂
        · rw [if_neg hs]
          apply ih
          · rw [alookup_mapSet, if_neg hkk]
            exact hm
          · exact hu₂

theorem trimPfx_colon_question (a : String) :
    trimPfx (a ++ ":") "Question" = "Question" := by
  have hdata : (a ++ ":").data = a.data ++ [':'] := rfl
  have hnp : ¬ ((a ++ ":").data.isPrefixOf "Question".data = true) := by
    intro h
    have h₃ := List.isPrefixOf_iff_prefix.mp h
    obtain ⟨t, ht⟩ := h₃
    have hmem : ':' ∈ "Question".data := by
      rw [← ht, hdata]
      simp
    exact absurd hmem (by decide)
  unfold trimPfx
  rw [if_neg hnp]

theorem trimPfx_questionAliasPfx (am : AliasMap) :
    trimPfx (questionAliasPfx am) "Question" = "Question" := by
  unfold questionAliasPfx
  cases alookup vocabNS am with
  | none => rfl
  | some a => exact trimPfx_colon_question a

/-- Claim C9: with a type entry of Question and property deserializers
that all succeed, DeserializeQuestion succeeds, its unknown map holds
exactly the input entries whose key is outside the known-key list, and a
subsequent Serialize re-emits every unknown entry unchanged except that
an unknown key colliding with an already-emitted known key keeps the
known value. -/
theorem claimC9_unknown_roundtrip {P : Type u} (ds : List (QuestionPropDeserializer P))
    (m : JSONObj) (am : AliasMap)
    (ser : P → Except String (Option JSONValue)) (name : P → String)
    (hty : alookup "type" m = some (JSONValue.str "Question"))
    (hall : ∀ d ∈ ds, ∃ r, d m am = .ok r) :
    ∃ q, deserializeQuestion ds m am = .ok q ∧
      q.unknown = m.filter (fun kv => !(questionKnownKeys.contains kv.1)) ∧
      ∀ out, serializeQuestion ser name q = .ok out →
        ∀ emitted, serializeKnown ser name q.props
            [("type", JSONValue.str (if q.aliasName.length > 0 then
                q.aliasName ++ ":" ++ "Question" else "Question"))] = .ok emitted →
          ∀ k v, alookup k q.unknown = some v →
            (alookup k emitted = none → alookup k out = some v) ∧
            (∀ w, alookup k emitted = some w → alookup k out = some w) := by
  have htrim := trimPfx_questionAliasPfx am
  have hqok : questionTypeOK (questionAliasPfx am) m = .ok () := by
    simp [questionTypeOK, hty, htrim]
  obtain ⟨ps, hps⟩ := (desAll_ok_iff m am ds).mpr hall
  refine ⟨{ props := ps, aliasName := resolveAlias am,
            unknown := m.filter fun kv => !(questionKnownKeys.contains kv.1) }, ?_, rfl, ?_⟩
  · simp only [deserializeQuestion]
    rw [hqok, hps]
  · intro out hout emitted hemit k v hv
    simp only [serializeQuestion] at hout
    rw [hemit] at hout
    have hout₂ : out = mergeUnknown emitted
        (m.filter fun kv => !(questionKnownKeys.contains kv.1)) :=
      (Except.ok.inj hout).symm
    constructor
    · intro hnone
      rw [hout₂]
      exact alookup_mergeUnknown_right _ _ _ _ hnone hv
    · intro w hw
      rw [hout₂]
      exact alookup_mergeUnknown_left _ _ _ _ hw

/-- Witness for claim C9: the scenario of the spec, a Question map with
one extra key foo, one property deserializer that succeeds, and a
serializer emitting the actor property. -/
theorem claimC9_witness :
    ∃ q : ActivityStreamsQuestion Unit,
      deserializeQuestion [fun _ _ => Except.ok (some ())]
          [("type", JSONValue.str "Question"), ("foo", JSONValue.str "bar")] [] = .ok q ∧
      q.unknown = [("foo", JSONValue.str "bar")] ∧
      ∀ out, serializeQuestion (fun _ => Except.ok (some JSONValue.null))
          (fun _ => "actor") q = .ok out →
        ∀ emitted, serializeKnown (fun _ => Except.ok (some JSONValue.null))
            (fun _ => "actor") q.props
            [("type", JSONValue.str (if q.aliasName.length > 0 then
                q.aliasName ++ ":" ++ "Question" else "Question"))] = .ok emitted →
          ∀ k v, alookup k q.unknown = some v →
            (alookup k emitted = none → alookup k out = some v) ∧
            (∀ w, alookup k emitted = some w → alookup k out = some w) :=
  claimC9_unknown_roundtrip [fun _ _ => Except.ok (some ())]
    [("type", JSONValue.str "Question"), ("foo", JSONValue.str "bar")] []
    (fun _ => Except.ok (some JSONValue.null)) (fun _ => "actor") rfl
    (by
      intro d hd
      rw [List.mem_singleton] at hd
      subst hd
      exact ⟨some (), rfl⟩)
